import Mathlib

/-!
Verification development for the dep-migrate CLI (src/src/index.ts).

The tool scans a package.json manifest, asks the npm registry which
dependencies are deprecated in their latest version, looks up a suggested
replacement through the npms.io search endpoint, and (in migrate mode)
rewrites the manifest and triggers a reinstall.

The embedding below is a shallow model of the functions `fetchNpmInfo`,
`fetchAlternative`, `scanDependencies` and `migrateDependencies`.  JSON
objects are modelled as association lists (key order is observable through
`Object.keys`, and property assignment overwrites in place while a new key
is appended at the end, exactly as in JavaScript).  Network and operator
interaction are modelled by an explicit environment record.
-/

namespace DepMigrate

/-- Association-list lookup; models a JavaScript object property read
(`obj[key]`, `undefined` becoming `none`). -/
def lookupK {α : Type} : List (String × α) → String → Option α
  | [], _ => none
  | (k, v) :: rest, key => if k = key then some v else lookupK rest key

/-- Association-list update; models JavaScript property assignment
(`obj[key] = val`): an existing key keeps its position and gets the new
value, a fresh key is appended at the end. -/
def setK {α : Type} : List (String × α) → String → α → List (String × α)
  | [], key, val => [(key, val)]
  | (k, v) :: rest, key, val =>
    if k = key then (k, val) :: rest else (k, v) :: setK rest key val

/-- Association-list removal; models `delete obj[key]` (object keys are
unique, the relative order of the surviving keys is preserved). -/
def eraseK {α : Type} (l : List (String × α)) (key : String) : List (String × α) :=
  l.filter (fun e => e.1 != key)

/-- The keys of an object in stored order, models `Object.keys(obj)`. -/
def keysOf {α : Type} (l : List (String × α)) : List String :=
  l.map Prod.fst

/-- Registry metadata document as read by the tool.  The only fields the
source ever accesses are `info["dist-tags"]?.latest` and
`info.versions?.[latest]?.deprecated`, so the document is modelled by those
two projections; a version entry is modelled by its optional `deprecated`
field (the only field of it that is read). -/
structure NpmInfo where
  distTagsLatest : Option String
  versions : Option (List (String × Option String))
deriving DecidableEq, Repr

/-- Search endpoint response: the source reads `parsed.results` and, for the
first entry, `package?.name`; an item is modelled by that optional name. -/
structure SearchResp where
  results : Option (List (Option String))
deriving DecidableEq, Repr

/-- The lookup cache: a single JSON object whose keys are namespaced by the
injective and mutually disjoint prefixes `npmInfo:` and `alt:`; it is
modelled by its two disjoint projections. -/
structure Cache where
  npm : List (String × NpmInfo)
  alt : List (String × Option String)
deriving DecidableEq, Repr

def Cache.empty : Cache := ⟨[], []⟩

/-- The external world as seen by one run: the registry metadata endpoint
(`none` means the request errored or the body did not parse, i.e. the
promise rejects), the search endpoint (`none` means the request errored or
the body did not parse, both of which resolve `null` without caching), and
the operator's successive answers on standard input. -/
structure Env where
  registry : String → Option NpmInfo
  search : String → Option SearchResp
  answers : Nat → String

/-- JavaScript truthiness of a string-or-null value: `null` and the empty
string are falsy, every other string is truthy. -/
def truthyOpt : Option String → Bool
  | some s => s != ""
  | none => false

/-- The deprecation message the tool reads from a registry document:
`info["dist-tags"]?.latest` followed by `info.versions?.[latest]?.deprecated`,
with every missing link collapsing to `none` through optional chaining. -/
def deprecatedMsgOf (info : NpmInfo) : Option String :=
  match info.distTagsLatest with
  | none => none
  | some latest =>
    match info.versions with
    | none => none
    | some vs =>
      match lookupK vs latest with
      | none => none
      | some msg => msg

/-- The test `if (deprecatedMsg)`: a JavaScript truthiness test, so a missing
message and an empty-string message both count as not deprecated. -/
def isDeprecated (info : NpmInfo) : Bool :=
  truthyOpt (deprecatedMsgOf info)

/-- The suggestion extracted from a parsed search response:
`parsed.results && parsed.results.length > 0` and then
`parsed.results[0].package?.name || null` (a missing or empty name degrades
to `null`). -/
def suggestionOf (resp : SearchResp) : Option String :=
  match resp.results with
  | some (first :: _) =>
    (match first with
     | some name => if name = "" then none else some name
     | none => none)
  | _ => none

/-- Outcome of one `fetchNpmInfo` call: the resolved value (`none` = the
promise rejected), the cache afterwards, and whether a network request was
issued. -/
structure NpmFetch where
  value : Option NpmInfo
  cache : Cache
  net : Bool
deriving DecidableEq, Repr

/-- Model of `fetchNpmInfo(pkg, refresh)`.  The guard is
`if (!refresh && cache["npmInfo:"+pkg]) return cached`; a cached registry
document is a JSON object and hence truthy, so the guard is a presence test.
On a miss the registry is queried; a parsed body is cached and resolved, a
request error or unparsable body rejects without touching the cache. -/
def fetchNpmInfo (env : Env) (c : Cache) (pkg : String) (refresh : Bool) : NpmFetch :=
  match (if refresh then none else lookupK c.npm pkg) with
  | some info => ⟨some info, c, false⟩
  | none =>
    match env.registry pkg with
    | none => ⟨none, c, true⟩
    | some info => ⟨some info, { c with npm := setK c.npm pkg info }, true⟩

/-- Outcome of one `fetchAlternative` call. -/
structure AltFetch where
  value : Option String
  cache : Cache
  net : Bool
deriving DecidableEq, Repr

/-- Model of `fetchAlternative(pkg, refresh)`.  The guard
`if (!refresh && cache["alt:"+pkg]) return cached` is a JavaScript
truthiness test, so a cached `null` suggestion is NOT treated as a hit.  On
a miss the search endpoint is queried; a parsed response stores the
extracted suggestion (possibly `null`) in the cache and resolves it, while
a request error or unparsable body resolves `null` WITHOUT writing the
cache.  No path rejects. -/
def fetchAlternative (env : Env) (c : Cache) (pkg : String) (refresh : Bool) : AltFetch :=
  let hit : Option (Option String) :=
    if refresh then none
    else
      match lookupK c.alt pkg with
      | some cached => if truthyOpt cached then some cached else none
      | none => none
  match hit with
  | some cached => ⟨cached, c, false⟩
  | none =>
    match env.search pkg with
    | none => ⟨none, c, true⟩
    | some resp =>
      let s := suggestionOf resp
      ⟨s, { c with alt := setK c.alt pkg s }, true⟩

/-- The suggestion a fresh (uncached) search query yields for a package. -/
def envAlt (env : Env) (pkg : String) : Option String :=
  match env.search pkg with
  | none => none
  | some resp => suggestionOf resp

/-- Model of `askQuestion`: the raw answer goes through
`answer.toLowerCase().startsWith("y")`.  Since the tested word is the single
ASCII character `y`, the call is true exactly when the answer's first
character lowercases to `y`; the empty answer is false. -/
def accept (answer : String) : Bool :=
  match answer.data with
  | [] => false
  | c :: _ => c.toLower == 'y'

/-- The two manifest sections, in the fixed order the source iterates them. -/
inductive Sect where
  | dependencies
  | devDependencies
deriving DecidableEq, Repr

/-- The package.json manifest: each section, when present, maps package names
to version specifiers in stored key order. -/
structure Manifest where
  dependencies : Option (List (String × String))
  devDependencies : Option (List (String × String))
deriving DecidableEq, Repr

def Manifest.sect (m : Manifest) : Sect → Option (List (String × String))
  | .dependencies => m.dependencies
  | .devDependencies => m.devDependencies

def Manifest.updateSect (m : Manifest) :
    Sect → (List (String × String) → List (String × String)) → Manifest
  | .dependencies, f => { m with dependencies := m.dependencies.map f }
  | .devDependencies, f => { m with devDependencies := m.devDependencies.map f }

/-- Migration action kinds, as written into the run's report. -/
inductive Action where
  | replaced
  | wouldReplace
  | skipped
deriving DecidableEq, Repr

/-- One migration action record.  The source pushes
`{dependency, action, alternative}` for `replaced` / `would-replace` and
`{dependency, action}` for `skipped`; the absent field is modelled as
`none`. -/
structure ActionRecord where
  dependency : String
  action : Action
  alternative : Option String
deriving DecidableEq, Repr

/-- Migration options (the `jsonOutput` flag only switches which console
messages are printed and is omitted from the model). -/
structure Opts where
  interactive : Bool := false
  dryRun : Bool := false
  refresh : Bool := false
deriving DecidableEq, Repr

/-- Loop state of `migrateDependencies`: the in-memory manifest, the cache,
how many interactive questions have been asked so far (the operator's
answers are consumed in order from standard input), the trace of visited
(section, name) pairs (one spinner is started per visit), the report list,
and the `modified` / counter variables of the source. -/
structure MState where
  pkg : Manifest
  cache : Cache
  promptIdx : Nat
  visited : List (Sect × String)
  results : List ActionRecord
  modified : Bool
  replacedCount : Nat
  skippedCount : Nat
deriving DecidableEq, Repr

/-- The body of the inner migration loop for one dependency name, after the
spinner for the visit has been started (the `visited` trace entry is added by
`processDep` below). -/
def processDepCore (env : Env) (opts : Opts) (sec : Sect) (dep : String) (st : MState) : MState :=
  match fetchNpmInfo env st.cache dep opts.refresh with
  | ⟨none, c, _⟩ =>
    -- the awaited fetch rejected: the catch block logs and the loop continues
    { st with cache := c }
  | ⟨some info, c, _⟩ =>
    if isDeprecated info then
      let f := fetchAlternative env c dep opts.refresh
      let doReplace := if opts.interactive then accept (env.answers st.promptIdx) else true
      let idx := if opts.interactive then st.promptIdx + 1 else st.promptIdx
      let skippedSt : MState :=
        { st with
            cache := f.cache,
            promptIdx := idx,
            results := st.results ++ [⟨dep, .skipped, none⟩],
            skippedCount := st.skippedCount + 1 }
      match f.value with
      | some a =>
        -- `if (doReplace && alt)`: string truthiness, "" is falsy
        if doReplace && (a != "") then
          if opts.dryRun then
            { st with
                cache := f.cache,
                promptIdx := idx,
                results := st.results ++ [⟨dep, .wouldReplace, some a⟩],
                skippedCount := st.skippedCount + 1 }
          else
            { st with
                cache := f.cache,
                promptIdx := idx,
                pkg := st.pkg.updateSect sec (fun l => setK (eraseK l dep) a "latest"),
                results := st.results ++ [⟨dep, .replaced, some a⟩],
                modified := true,
                replacedCount := st.replacedCount + 1 }
        else skippedSt
      | none => skippedSt
    else
      { st with cache := c }

/-- One iteration of the inner migration loop: start a spinner for the visit
(recorded in the `visited` trace), then run the loop body. -/
def processDep (env : Env) (opts : Opts) (sec : Sect) (dep : String) (st : MState) : MState :=
  processDepCore env opts sec dep { st with visited := st.visited ++ [(sec, dep)] }

/-- One section of the migration loop: `if (!pkg[section]) continue` (an
absent section is falsy, a present-but-empty object is truthy), then
iteration over `Object.keys(pkg[section])` — a key snapshot taken once when
the section's loop begins. -/
def processSection (env : Env) (opts : Opts) (sec : Sect) (st : MState) : MState :=
  match st.pkg.sect sec with
  | none => st
  | some l => (keysOf l).foldl (fun s d => processDep env opts sec d s) st

/-- Result of one `migrateDependencies` run.  `wrote` is the manifest
write, `reinstalled` the package-manager install call; in the source both
sit inside the single `if (!dryRun && modified)` block. -/
structure MResult where
  pkg : Manifest
  cache : Cache
  visited : List (Sect × String)
  results : List ActionRecord
  modified : Bool
  replacedCount : Nat
  skippedCount : Nat
  wrote : Bool
  reinstalled : Bool
deriving DecidableEq, Repr

/-- Model of `migrateDependencies(options)` on a manifest and a starting cache. -/
def migrate (env : Env) (opts : Opts) (pkg0 : Manifest) (c0 : Cache) : MResult :=
  let st0 : MState := ⟨pkg0, c0, 0, [], [], false, 0, 0⟩
  let st1 := processSection env opts .dependencies st0
  let st2 := processSection env opts .devDependencies st1
  let wr := !opts.dryRun && st2.modified
  ⟨st2.pkg, st2.cache, st2.visited, st2.results, st2.modified,
    st2.replacedCount, st2.skippedCount, wr, wr⟩

/-- Per-dependency verdict of a scan run. -/
inductive Verdict where
  | deprecatedV (msg : Option String) (alternative : Option String)
  | healthy
  | failed
deriving DecidableEq, Repr

/-- Loop state of `scanDependencies`. -/
structure SState where
  cache : Cache
  verdicts : List (String × Verdict)
  deprecatedCount : Nat
deriving DecidableEq, Repr

/-- The body of the scan loop for one dependency name. -/
def scanStep (env : Env) (refresh : Bool) (st : SState) (dep : String) : SState :=
  match fetchNpmInfo env st.cache dep refresh with
  | ⟨none, c, _⟩ =>
    -- fetch rejected: spinner.fail, the dependency is recorded as failed
    { st with
        cache := c,
        verdicts := st.verdicts ++ [(dep, .failed)] }
  | ⟨some info, c, _⟩ =>
    if isDeprecated info then
      let f := fetchAlternative env c dep refresh
      { cache := f.cache,
        verdicts := st.verdicts ++ [(dep, .deprecatedV (deprecatedMsgOf info) f.value)],
        deprecatedCount := st.deprecatedCount + 1 }
    else
      { st with
          cache := c,
          verdicts := st.verdicts ++ [(dep, .healthy)] }

/-- The scanned dependency set:
`{ ...(pkg.dependencies || {}), ...(pkg.devDependencies || {}) }`.  Spreading
merges the two objects, so the key list is the dependencies keys followed by
the devDependencies keys not already present — a name declared in both
sections is scanned once. -/
def mergedKeys (pkg0 : Manifest) : List String :=
  let d := keysOf (pkg0.dependencies.getD [])
  let dv := keysOf (pkg0.devDependencies.getD [])
  d ++ dv.filter (fun k => !(d.contains k))

/-- Result of one `scanDependencies` run.  `reportedHealthy` models the
summary line `Object.keys(deps).length - deprecatedCount`. -/
structure ScanResult where
  verdicts : List (String × Verdict)
  deprecatedCount : Nat
  total : Nat
  reportedHealthy : Nat
  cache : Cache
deriving DecidableEq, Repr

/-- Model of `scanDependencies(options)` on a manifest and a starting cache. -/
def scan (env : Env) (pkg0 : Manifest) (c0 : Cache) (refresh : Bool) : ScanResult :=
  let keys := mergedKeys pkg0
  let st := keys.foldl (scanStep env refresh) ⟨c0, [], 0⟩
  ⟨st.verdicts, st.deprecatedCount, keys.length, keys.length - st.deprecatedCount, st.cache⟩

end DepMigrate

namespace DepMigrate

/-! ### Basic lemmas about the object-as-association-list operations -/

theorem lookupK_setK {α : Type} (l : List (String × α)) (k q : String) (v : α) :
    lookupK (setK l k v) q = if k = q then some v else lookupK l q := by
  induction l with
  | nil =>
    by_cases h : k = q <;> simp [setK, lookupK, h]
  | cons hd t ih =>
    obtain ⟨hk, hv⟩ := hd
    by_cases hkk : hk = k
    · subst hkk
      by_cases hq : hk = q <;> simp [setK, lookupK, hq]
    · by_cases hq1 : hk = q
      · subst hq1
        have hkq : ¬ k = hk := fun h => hkk h.symm
        simp [setK, lookupK, hkk, hkq]
      · simp [setK, lookupK, hkk, hq1, ih]

/-- Fold preservation of an invariant. -/
theorem foldl_pres {σ α : Type} (P : σ → Prop) (f : σ → α → σ)
    (hf : ∀ s a, P s → P (f s a)) :
    ∀ (l : List α) (s : σ), P s → P (l.foldl f s) := by
  intro l
  induction l with
  | nil => intro s hs; simpa using hs
  | cons a t ih => intro s hs; simpa using ih (f s a) (hf s a hs)

/-! ### Structural lemmas about the migration loop -/

theorem sect_updateSect (m : Manifest) (sec s' : Sect)
    (f : List (String × String) → List (String × String)) :
    (m.updateSect sec f).sect s' =
      if s' = sec then (m.sect sec).map f else m.sect s' := by
  cases sec <;> cases s' <;> simp [Manifest.updateSect, Manifest.sect]

theorem processDepCore_visited (env : Env) (opts : Opts) (sec : Sect) (dep : String)
    (st : MState) :
    (processDepCore env opts sec dep st).visited = st.visited := by
  unfold processDepCore
  cases hf : fetchNpmInfo env st.cache dep opts.refresh with
  | mk v c n =>
    cases v with
    | none => simp
    | some info =>
      by_cases hd : isDeprecated info
      · simp only [hd, if_true]
        cases hv : (fetchAlternative env c dep opts.refresh).value <;>
          simp only [hv] <;> split_ifs <;> simp
      · simp [hd]

theorem processDep_visited (env : Env) (opts : Opts) (sec : Sect) (dep : String) (st : MState) :
    (processDep env opts sec dep st).visited = st.visited ++ [(sec, dep)] := by
  unfold processDep
  rw [processDepCore_visited]

theorem processDepCore_sect_other (env : Env) (opts : Opts) (sec : Sect) (dep : String)
    (st : MState) (s' : Sect) (hne : s' ≠ sec) :
    (processDepCore env opts sec dep st).pkg.sect s' = st.pkg.sect s' := by
  unfold processDepCore
  cases hf : fetchNpmInfo env st.cache dep opts.refresh with
  | mk v c n =>
    cases v with
    | none => simp
    | some info =>
      by_cases hd : isDeprecated info
      · simp only [hd, if_true]
        cases hv : (fetchAlternative env c dep opts.refresh).value <;>
          simp only [hv] <;> split_ifs <;> simp [sect_updateSect, hne]
      · simp [hd]

theorem processDep_sect_other (env : Env) (opts : Opts) (sec : Sect) (dep : String)
    (st : MState) (s' : Sect) (hne : s' ≠ sec) :
    (processDep env opts sec dep st).pkg.sect s' = st.pkg.sect s' := by
  unfold processDep
  rw [processDepCore_sect_other env opts sec dep _ s' hne]

/-- The keys of a manifest section (empty when the section is absent). -/
def sectKeys (m : Manifest) (s : Sect) : List String :=
  match m.sect s with
  | none => []
  | some l => keysOf l

theorem fold_visited (env : Env) (opts : Opts) (sec : Sect) :
    ∀ (ks : List String) (st : MState),
      ((ks.foldl (fun s d => processDep env opts sec d s) st).visited)
        = st.visited ++ ks.map (fun k => (sec, k)) := by
  intro ks
  induction ks with
  | nil => intro st; simp
  | cons k t ih => intro st; simp [ih, processDep_visited]

theorem processSection_visited (env : Env) (opts : Opts) (sec : Sect) (st : MState) :
    (processSection env opts sec st).visited
      = st.visited ++ (sectKeys st.pkg sec).map (fun k => (sec, k)) := by
  unfold processSection
  cases hs : st.pkg.sect sec with
  | none => simp [sectKeys, hs]
  | some l => simp [sectKeys, hs, fold_visited]

theorem processSection_sect_other (env : Env) (opts : Opts) (sec : Sect) (st : MState)
    (s' : Sect) (hne : s' ≠ sec) :
    (processSection env opts sec st).pkg.sect s' = st.pkg.sect s' := by
  unfold processSection
  cases hs : st.pkg.sect sec with
  | none => rfl
  | some l =>
    exact foldl_pres (fun s => s.pkg.sect s' = st.pkg.sect s')
      (fun s d => processDep env opts sec d s)
      (fun s a hp => by
        show (processDep env opts sec a s).pkg.sect s' = st.pkg.sect s'
        rw [processDep_sect_other env opts sec a s s' hne]; exact hp)
      (keysOf l) st rfl

/-- The visit trace of a whole migration run: the original dependencies keys
tagged with their section, then the original devDependencies keys. -/
theorem migrate_visited (env : Env) (opts : Opts) (pkg0 : Manifest) (c0 : Cache) :
    (migrate env opts pkg0 c0).visited
      = (sectKeys pkg0 .dependencies).map (fun k => (Sect.dependencies, k))
        ++ (sectKeys pkg0 .devDependencies).map (fun k => (Sect.devDependencies, k)) := by
  unfold migrate
  have h1 := processSection_visited env opts .dependencies ⟨pkg0, c0, 0, [], [], false, 0, 0⟩
  have h2 := processSection_visited env opts .devDependencies
    (processSection env opts .dependencies ⟨pkg0, c0, 0, [], [], false, 0, 0⟩)
  have h3 := processSection_sect_other env opts .dependencies
    ⟨pkg0, c0, 0, [], [], false, 0, 0⟩ .devDependencies (by simp)
  simp only [h2, h1] at *
  simp [sectKeys, h3]


/-! ### Report predicates -/

/-- No record of the list carries the `replaced` action. -/
def noReplaced (l : List ActionRecord) : Bool :=
  l.all (fun r => r.action != Action.replaced)

/-- Every record that carries a (non-absent) alternative is a `would-replace`
record. -/
def wouldRecsOnly (l : List ActionRecord) : Bool :=
  l.all (fun r => !r.alternative.isSome || (r.action == Action.wouldReplace))

/-- Every record of the list carries the `skipped` action. -/
def allSkipped (l : List ActionRecord) : Bool :=
  l.all (fun r => r.action == Action.skipped)

/-- Some record of the list carries the `replaced` action. -/
def anyReplaced (l : List ActionRecord) : Bool :=
  l.any (fun r => r.action == Action.replaced)

theorem noReplaced_append (l₁ l₂ : List ActionRecord) :
    noReplaced (l₁ ++ l₂) = (noReplaced l₁ && noReplaced l₂) := by
  simp [noReplaced]

theorem wouldRecsOnly_append (l₁ l₂ : List ActionRecord) :
    wouldRecsOnly (l₁ ++ l₂) = (wouldRecsOnly l₁ && wouldRecsOnly l₂) := by
  simp [wouldRecsOnly]

theorem allSkipped_append (l₁ l₂ : List ActionRecord) :
    allSkipped (l₁ ++ l₂) = (allSkipped l₁ && allSkipped l₂) := by
  simp [allSkipped]

theorem anyReplaced_append (l₁ l₂ : List ActionRecord) :
    anyReplaced (l₁ ++ l₂) = (anyReplaced l₁ || anyReplaced l₂) := by
  simp [anyReplaced]

theorem noReplaced_single (r : ActionRecord) :
    noReplaced [r] = (r.action != Action.replaced) := by
  simp [noReplaced]

theorem wouldRecsOnly_single (r : ActionRecord) :
    wouldRecsOnly [r] = (!r.alternative.isSome || (r.action == Action.wouldReplace)) := by
  simp [wouldRecsOnly]

theorem allSkipped_single (r : ActionRecord) :
    allSkipped [r] = (r.action == Action.skipped) := by
  simp [allSkipped]

theorem anyReplaced_single (r : ActionRecord) :
    anyReplaced [r] = (r.action == Action.replaced) := by
  simp [anyReplaced]

theorem noReplaced_snoc (l : List ActionRecord) (r : ActionRecord)
    (hl : noReplaced l = true) (hr : (r.action != Action.replaced) = true) :
    noReplaced (l ++ [r]) = true := by
  rw [noReplaced_append, hl, noReplaced_single, hr]; rfl

theorem wouldRecsOnly_snoc (l : List ActionRecord) (r : ActionRecord)
    (hl : wouldRecsOnly l = true)
    (hr : (!r.alternative.isSome || (r.action == Action.wouldReplace)) = true) :
    wouldRecsOnly (l ++ [r]) = true := by
  rw [wouldRecsOnly_append, hl, wouldRecsOnly_single, hr]; rfl

theorem allSkipped_snoc (l : List ActionRecord) (r : ActionRecord)
    (hl : allSkipped l = true) (hr : (r.action == Action.skipped) = true) :
    allSkipped (l ++ [r]) = true := by
  rw [allSkipped_append, hl, allSkipped_single, hr]; rfl

theorem anyReplaced_snoc_false (l : List ActionRecord) (r : ActionRecord)
    (hr : (r.action == Action.replaced) = false) :
    anyReplaced (l ++ [r]) = anyReplaced l := by
  rw [anyReplaced_append, anyReplaced_single, hr, Bool.or_false]

theorem anyReplaced_snoc_true (l : List ActionRecord) (r : ActionRecord)
    (hr : (r.action == Action.replaced) = true) :
    anyReplaced (l ++ [r]) = true := by
  rw [anyReplaced_append, anyReplaced_single, hr, Bool.or_true]

/-! ### Generic loop preservation -/

theorem processSection_pres (env : Env) (opts : Opts) (P : MState → Prop)
    (hstep : ∀ sec dep st, P st → P (processDep env opts sec dep st)) :
    ∀ (sec : Sect) (st : MState), P st → P (processSection env opts sec st) := by
  intro sec st h
  unfold processSection
  cases hs : st.pkg.sect sec with
  | none => exact h
  | some l =>
    exact foldl_pres P (fun s d => processDep env opts sec d s)
      (fun s a hp => hstep sec a s hp) (keysOf l) st h

/-- The final loop state of a migration run. -/
def migrateFinal (env : Env) (opts : Opts) (pkg0 : Manifest) (c0 : Cache) : MState :=
  processSection env opts .devDependencies
    (processSection env opts .dependencies ⟨pkg0, c0, 0, [], [], false, 0, 0⟩)

theorem migrate_eq (env : Env) (opts : Opts) (pkg0 : Manifest) (c0 : Cache) :
    migrate env opts pkg0 c0 =
      ⟨(migrateFinal env opts pkg0 c0).pkg, (migrateFinal env opts pkg0 c0).cache,
       (migrateFinal env opts pkg0 c0).visited, (migrateFinal env opts pkg0 c0).results,
       (migrateFinal env opts pkg0 c0).modified, (migrateFinal env opts pkg0 c0).replacedCount,
       (migrateFinal env opts pkg0 c0).skippedCount,
       !opts.dryRun && (migrateFinal env opts pkg0 c0).modified,
       !opts.dryRun && (migrateFinal env opts pkg0 c0).modified⟩ := rfl

theorem migrateFinal_pres (env : Env) (opts : Opts) (pkg0 : Manifest) (c0 : Cache)
    (P : MState → Prop)
    (hstep : ∀ sec dep st, P st → P (processDep env opts sec dep st))
    (h0 : P ⟨pkg0, c0, 0, [], [], false, 0, 0⟩) :
    P (migrateFinal env opts pkg0 c0) := by
  unfold migrateFinal
  exact processSection_pres env opts P hstep _ _
    (processSection_pres env opts P hstep _ _ h0)

/-! ### Dry-run frame invariant (towards C2) -/

theorem processDepCore_dry (env : Env) (opts : Opts) (sec : Sect) (dep : String)
    (st : MState) (p0 : Manifest) (hdry : opts.dryRun = true)
    (h : st.pkg = p0 ∧ st.modified = false ∧ noReplaced st.results = true
          ∧ wouldRecsOnly st.results = true) :
    (processDepCore env opts sec dep st).pkg = p0
      ∧ (processDepCore env opts sec dep st).modified = false
      ∧ noReplaced (processDepCore env opts sec dep st).results = true
      ∧ wouldRecsOnly (processDepCore env opts sec dep st).results = true := by
  obtain ⟨h1, h2, h3, h4⟩ := h
  unfold processDepCore
  cases hf : fetchNpmInfo env st.cache dep opts.refresh with
  | mk v c n =>
    cases v with
    | none => exact ⟨h1, h2, h3, h4⟩
    | some info =>
      by_cases hd : isDeprecated info
      · simp only [hd, if_true]
        cases hv : (fetchAlternative env c dep opts.refresh).value with
        | none =>
          simp only [hv]
          exact ⟨h1, h2, noReplaced_snoc _ _ h3 rfl, wouldRecsOnly_snoc _ _ h4 rfl⟩
        | some a =>
          simp only [hv]
          split_ifs <;>
            first
              | exact absurd hdry (by assumption)
              | exact ⟨h1, h2, noReplaced_snoc _ _ h3 rfl, wouldRecsOnly_snoc _ _ h4 rfl⟩
      · simp only [hd]
        exact ⟨h1, h2, h3, h4⟩

theorem processDep_dry (env : Env) (opts : Opts) (sec : Sect) (dep : String)
    (st : MState) (p0 : Manifest) (hdry : opts.dryRun = true)
    (h : st.pkg = p0 ∧ st.modified = false ∧ noReplaced st.results = true
          ∧ wouldRecsOnly st.results = true) :
    (processDep env opts sec dep st).pkg = p0
      ∧ (processDep env opts sec dep st).modified = false
      ∧ noReplaced (processDep env opts sec dep st).results = true
      ∧ wouldRecsOnly (processDep env opts sec dep st).results = true :=
  processDepCore_dry env opts sec dep _ p0 hdry h

/-! ### The modified flag tracks the replaced records (towards C3) -/

theorem processDepCore_modified (env : Env) (opts : Opts) (sec : Sect) (dep : String)
    (st : MState) (h : st.modified = anyReplaced st.results) :
    (processDepCore env opts sec dep st).modified
      = anyReplaced (processDepCore env opts sec dep st).results := by
  unfold processDepCore
  cases hf : fetchNpmInfo env st.cache dep opts.refresh with
  | mk v c n =>
    cases v with
    | none => exact h
    | some info =>
      by_cases hd : isDeprecated info
      · simp only [hd, if_true]
        cases hv : (fetchAlternative env c dep opts.refresh).value with
        | none =>
          simp only [hv]
          exact h.trans (anyReplaced_snoc_false st.results ⟨dep, Action.skipped, none⟩ rfl).symm
        | some a =>
          simp only [hv]
          split_ifs <;>
            first
              | exact (anyReplaced_snoc_true st.results ⟨dep, Action.replaced, some a⟩ rfl).symm
              | exact h.trans
                  (anyReplaced_snoc_false st.results ⟨dep, Action.wouldReplace, some a⟩ rfl).symm
              | exact h.trans
                  (anyReplaced_snoc_false st.results ⟨dep, Action.skipped, none⟩ rfl).symm
      · simp only [hd]
        exact h

theorem processDep_modified (env : Env) (opts : Opts) (sec : Sect) (dep : String)
    (st : MState) (h : st.modified = anyReplaced st.results) :
    (processDep env opts sec dep st).modified
      = anyReplaced (processDep env opts sec dep st).results :=
  processDepCore_modified env opts sec dep _ h


/-! ### A healthy world produces no action at all (towards C3) -/

/-- Every registry document stored in the npm part of the cache is
non-deprecated. -/
def npmCacheHealthy (c : Cache) : Prop :=
  ∀ p i, lookupK c.npm p = some i → isDeprecated i = false

theorem fetchNpmInfo_healthy (env : Env) (c : Cache) (p : String) (rf : Bool)
    (Hreg : ∀ q i, env.registry q = some i → isDeprecated i = false)
    (Hc : npmCacheHealthy c) :
    (∀ i, (fetchNpmInfo env c p rf).value = some i → isDeprecated i = false)
      ∧ npmCacheHealthy (fetchNpmInfo env c p rf).cache := by
  unfold fetchNpmInfo
  cases hl : (if rf then none else lookupK c.npm p) with
  | some info =>
    simp only [hl]
    have hlk : lookupK c.npm p = some info := by
      cases rf
      · simpa using hl
      · simp at hl
    exact ⟨fun i hi => Option.some.inj hi ▸ Hc p info hlk, Hc⟩
  | none =>
    simp only [hl]
    cases hr : env.registry p with
    | none =>
      simp only [hr]
      exact ⟨fun i hi => (nomatch hi), Hc⟩
    | some info =>
      simp only [hr]
      refine ⟨fun i hi => Option.some.inj hi ▸ Hreg p info hr, fun q j hq => ?_⟩
      rw [lookupK_setK] at hq
      by_cases hpq : p = q
      · rw [if_pos hpq] at hq
        exact Option.some.inj hq ▸ Hreg p info hr
      · rw [if_neg hpq] at hq
        exact Hc q j hq

theorem processDepCore_nodep (env : Env) (opts : Opts) (sec : Sect) (dep : String)
    (st : MState) (pkg0 : Manifest)
    (Hreg : ∀ q i, env.registry q = some i → isDeprecated i = false)
    (h : npmCacheHealthy st.cache ∧ st.pkg = pkg0 ∧ st.modified = false
          ∧ st.results = []) :
    npmCacheHealthy (processDepCore env opts sec dep st).cache
      ∧ (processDepCore env opts sec dep st).pkg = pkg0
      ∧ (processDepCore env opts sec dep st).modified = false
      ∧ (processDepCore env opts sec dep st).results = [] := by
  obtain ⟨hc, h1, h2, h3⟩ := h
  have hspec := fetchNpmInfo_healthy env st.cache dep opts.refresh Hreg hc
  unfold processDepCore
  cases hf : fetchNpmInfo env st.cache dep opts.refresh with
  | mk v c n =>
    rw [hf] at hspec
    cases v with
    | none => exact ⟨hspec.2, h1, h2, h3⟩
    | some info =>
      have hd : isDeprecated info = false := hspec.1 info rfl
      simp only [hd, Bool.false_eq_true, if_false]
      exact ⟨hspec.2, h1, h2, h3⟩

theorem processDep_nodep (env : Env) (opts : Opts) (sec : Sect) (dep : String)
    (st : MState) (pkg0 : Manifest)
    (Hreg : ∀ q i, env.registry q = some i → isDeprecated i = false)
    (h : npmCacheHealthy st.cache ∧ st.pkg = pkg0 ∧ st.modified = false
          ∧ st.results = []) :
    npmCacheHealthy (processDep env opts sec dep st).cache
      ∧ (processDep env opts sec dep st).pkg = pkg0
      ∧ (processDep env opts sec dep st).modified = false
      ∧ (processDep env opts sec dep st).results = [] :=
  processDepCore_nodep env opts sec dep _ pkg0 Hreg h

/-! ### C2 and C3 -/

/-- C2: a migration run with dryRun = true does not mutate any manifest
section (the resulting manifest equals the one read at the start), performs
no manifest write and no reinstall, never records a replaced action, and any
record that carries a suggested alternative is a would-replace record. -/
theorem claim2_dry_run_non_mutation (env : Env) (opts : Opts) (pkg0 : Manifest)
    (c0 : Cache) (hdry : opts.dryRun = true) :
    (migrate env opts pkg0 c0).pkg = pkg0
      ∧ (migrate env opts pkg0 c0).wrote = false
      ∧ (migrate env opts pkg0 c0).reinstalled = false
      ∧ (migrate env opts pkg0 c0).modified = false
      ∧ noReplaced (migrate env opts pkg0 c0).results = true
      ∧ wouldRecsOnly (migrate env opts pkg0 c0).results = true := by
  have hfin := migrateFinal_pres env opts pkg0 c0
    (fun st => st.pkg = pkg0 ∧ st.modified = false ∧ noReplaced st.results = true
      ∧ wouldRecsOnly st.results = true)
    (fun sec dep st h => processDep_dry env opts sec dep st pkg0 hdry h)
    ⟨rfl, rfl, rfl, rfl⟩
  obtain ⟨h1, h2, h3, h4⟩ := hfin
  rw [migrate_eq]
  exact ⟨h1, by simp [hdry], by simp [hdry], h2, h3, h4⟩

/-- C3: the manifest is written and the reinstall runs exactly when dryRun is
false and at least one replaced action was recorded; moreover, when neither
the registry nor the pre-existing cache reports any deprecated package, the
run records nothing, writes nothing, reinstalls nothing and leaves the
manifest untouched, whatever the flags. -/
theorem claim3_post_loop_write (env : Env) (opts : Opts) (pkg0 : Manifest) (c0 : Cache) :
    (migrate env opts pkg0 c0).wrote
        = (!opts.dryRun && anyReplaced (migrate env opts pkg0 c0).results)
      ∧ (migrate env opts pkg0 c0).reinstalled = (migrate env opts pkg0 c0).wrote
      ∧ ((∀ q i, env.registry q = some i → isDeprecated i = false) →
         (∀ q i, lookupK c0.npm q = some i → isDeprecated i = false) →
           (migrate env opts pkg0 c0).wrote = false
             ∧ (migrate env opts pkg0 c0).reinstalled = false
             ∧ (migrate env opts pkg0 c0).results = []
             ∧ (migrate env opts pkg0 c0).pkg = pkg0) := by
  have hmod := migrateFinal_pres env opts pkg0 c0
    (fun st => st.modified = anyReplaced st.results)
    (fun sec dep st h => processDep_modified env opts sec dep st h) rfl
  refine ⟨?_, ?_, ?_⟩
  · rw [migrate_eq]
    exact congrArg (fun b => !opts.dryRun && b) hmod
  · rw [migrate_eq]
  · intro Hreg Hc0
    have hfin := migrateFinal_pres env opts pkg0 c0
      (fun st => npmCacheHealthy st.cache ∧ st.pkg = pkg0 ∧ st.modified = false
        ∧ st.results = [])
      (fun sec dep st h => processDep_nodep env opts sec dep st pkg0 Hreg h)
      ⟨Hc0, rfl, rfl, rfl⟩
    obtain ⟨hcz, hp, hm, hr⟩ := hfin
    rw [migrate_eq]
    exact ⟨by simp [hm], by simp [hm], hr, hp⟩


/-! ### Verdict counting (towards C5) -/

def isDeprVerdict : Verdict → Bool
  | .deprecatedV _ _ => true
  | _ => false

def isHealthyVerdict : Verdict → Bool
  | .healthy => true
  | _ => false

def isFailedVerdict : Verdict → Bool
  | .failed => true
  | _ => false

/-- Number of deprecated verdicts in a scan report. -/
def countDeprecatedV (l : List (String × Verdict)) : Nat :=
  l.countP (fun v => isDeprVerdict v.2)

/-- Number of healthy verdicts (successful lookup, no deprecation). -/
def countHealthyV (l : List (String × Verdict)) : Nat :=
  l.countP (fun v => isHealthyVerdict v.2)

/-- Number of failed-lookup verdicts. -/
def countFailedV (l : List (String × Verdict)) : Nat :=
  l.countP (fun v => isFailedVerdict v.2)

theorem verdict_partition (l : List (String × Verdict)) :
    countDeprecatedV l + countHealthyV l + countFailedV l = l.length := by
  induction l with
  | nil => rfl
  | cons hd t ih =>
    obtain ⟨d, v⟩ := hd
    cases v <;>
      simp [countDeprecatedV, countHealthyV, countFailedV, List.countP_cons,
        isDeprVerdict, isHealthyVerdict, isFailedVerdict] at * <;>
      omega

theorem countDeprecatedV_append (l₁ l₂ : List (String × Verdict)) :
    countDeprecatedV (l₁ ++ l₂) = countDeprecatedV l₁ + countDeprecatedV l₂ := by
  simp [countDeprecatedV, List.countP_append]

theorem countDeprecatedV_single (x : String × Verdict) :
    countDeprecatedV [x] = if isDeprVerdict x.2 then 1 else 0 := by
  simp [countDeprecatedV, List.countP_cons]

/-- Each scan-loop step appends exactly one verdict for the visited
dependency and bumps the deprecated counter exactly for a deprecated
verdict. -/
theorem scanStep_shape (env : Env) (rf : Bool) (st : SState) (dep : String) :
    ∃ v : Verdict,
      (scanStep env rf st dep).verdicts = st.verdicts ++ [(dep, v)]
        ∧ (scanStep env rf st dep).deprecatedCount
            = st.deprecatedCount + (if isDeprVerdict v then 1 else 0) := by
  unfold scanStep
  cases hf : fetchNpmInfo env st.cache dep rf with
  | mk v c n =>
    cases v with
    | none => exact ⟨.failed, rfl, by simp [isDeprVerdict]⟩
    | some info =>
      by_cases hd : isDeprecated info
      · simp only [hd, if_true]
        exact ⟨.deprecatedV (deprecatedMsgOf info)
            (fetchAlternative env c dep rf).value, rfl, by simp [isDeprVerdict]⟩
      · simp only [hd, Bool.false_eq_true, if_false]
        exact ⟨.healthy, rfl, by simp [isDeprVerdict]⟩

theorem scan_fold_len (env : Env) (rf : Bool) :
    ∀ (ks : List String) (st : SState),
      ((ks.foldl (scanStep env rf) st).verdicts).length
        = st.verdicts.length + ks.length := by
  intro ks
  induction ks with
  | nil => intro st; simp
  | cons k t ih =>
    intro st
    obtain ⟨v, hv, _⟩ := scanStep_shape env rf st k
    rw [List.foldl_cons, ih, hv]
    simp [List.length_append]
    omega

theorem scan_fold_count (env : Env) (rf : Bool) (ks : List String) (st : SState)
    (h : st.deprecatedCount = countDeprecatedV st.verdicts) :
    (ks.foldl (scanStep env rf) st).deprecatedCount
      = countDeprecatedV (ks.foldl (scanStep env rf) st).verdicts := by
  refine foldl_pres (fun s => s.deprecatedCount = countDeprecatedV s.verdicts)
    (scanStep env rf) (fun s a hp => ?_) ks st h
  obtain ⟨v, hv, hc⟩ := scanStep_shape env rf s a
  rw [hc, hv, countDeprecatedV_append, countDeprecatedV_single, hp]

/-- The final loop state of a scan run. -/
def scanFinal (env : Env) (pkg0 : Manifest) (c0 : Cache) (rf : Bool) : SState :=
  (mergedKeys pkg0).foldl (scanStep env rf) ⟨c0, [], 0⟩

theorem scan_eq (env : Env) (pkg0 : Manifest) (c0 : Cache) (rf : Bool) :
    scan env pkg0 c0 rf =
      ⟨(scanFinal env pkg0 c0 rf).verdicts, (scanFinal env pkg0 c0 rf).deprecatedCount,
       (mergedKeys pkg0).length,
       (mergedKeys pkg0).length - (scanFinal env pkg0 c0 rf).deprecatedCount,
       (scanFinal env pkg0 c0 rf).cache⟩ := rfl


/-! ### Concrete test fixtures -/

/-- A registry document whose latest version carries a deprecation message. -/
def infoDeprecated : NpmInfo :=
  ⟨some "1.0.0", some [("1.0.0", some "use something else")]⟩

/-- A registry document whose latest version is not deprecated. -/
def infoHealthy : NpmInfo :=
  ⟨some "2.0.0", some [("2.0.0", none)]⟩

/-- A world in which every registry and search request fails. -/
def envFail : Env := ⟨fun _ => none, fun _ => none, fun _ => ""⟩

/-- A manifest declaring a single runtime dependency. -/
def pkgOne : Manifest := ⟨some [("left-pad", "^1.0.0")], none⟩

/-! ### C5 -/

/-- C5 counterexample: with a single dependency whose registry lookup fails,
the summary's healthy figure is `total - deprecatedCount = 1` although no
lookup succeeded, so the reported healthy count differs from the number of
successfully-checked non-deprecated dependencies, and adding the failed
count to the reported figures overshoots the dependency total. -/
theorem claim5_counterexample :
    (scan envFail pkgOne Cache.empty false).reportedHealthy = 1
      ∧ countHealthyV (scan envFail pkgOne Cache.empty false).verdicts = 0
      ∧ countFailedV (scan envFail pkgOne Cache.empty false).verdicts = 1
      ∧ (scan envFail pkgOne Cache.empty false).deprecatedCount = 0
      ∧ (scan envFail pkgOne Cache.empty false).total = 1
      ∧ (scan envFail pkgOne Cache.empty false).deprecatedCount
          + (scan envFail pkgOne Cache.empty false).reportedHealthy
          + countFailedV (scan envFail pkgOne Cache.empty false).verdicts
          ≠ (scan envFail pkgOne Cache.empty false).total := by
  decide

/-- C5 (amended): for every scanned dependency set the three verdict classes
partition the total; the scan's deprecated counter equals the number of
deprecated verdicts; but the reported healthy figure is computed as
`total - deprecatedCount`, which counts failed lookups as healthy and agrees
with the number of successful non-deprecated lookups exactly when no lookup
failed. -/
theorem claim5_scan_totals (env : Env) (pkg0 : Manifest) (c0 : Cache) (rf : Bool) :
    countDeprecatedV (scan env pkg0 c0 rf).verdicts
        + countHealthyV (scan env pkg0 c0 rf).verdicts
        + countFailedV (scan env pkg0 c0 rf).verdicts
      = (scan env pkg0 c0 rf).total
    ∧ (scan env pkg0 c0 rf).deprecatedCount
        = countDeprecatedV (scan env pkg0 c0 rf).verdicts
    ∧ (scan env pkg0 c0 rf).reportedHealthy
        = (scan env pkg0 c0 rf).total - (scan env pkg0 c0 rf).deprecatedCount
    ∧ (countFailedV (scan env pkg0 c0 rf).verdicts = 0 →
        (scan env pkg0 c0 rf).reportedHealthy
          = countHealthyV (scan env pkg0 c0 rf).verdicts) := by
  have hlen : (scanFinal env pkg0 c0 rf).verdicts.length = (mergedKeys pkg0).length := by
    have h := scan_fold_len env rf (mergedKeys pkg0) ⟨c0, [], 0⟩
    simpa [scanFinal] using h
  have hcount := scan_fold_count env rf (mergedKeys pkg0) ⟨c0, [], 0⟩ rfl
  have hpart := verdict_partition (scanFinal env pkg0 c0 rf).verdicts
  replace hcount : (scanFinal env pkg0 c0 rf).deprecatedCount
      = countDeprecatedV (scanFinal env pkg0 c0 rf).verdicts := hcount
  refine ⟨hpart.trans hlen, hcount, rfl, fun hF => ?_⟩
  replace hF : countFailedV (scanFinal env pkg0 c0 rf).verdicts = 0 := hF
  show (mergedKeys pkg0).length - (scanFinal env pkg0 c0 rf).deprecatedCount
      = countHealthyV (scanFinal env pkg0 c0 rf).verdicts
  omega

/-- C5 witness: the amended statement evaluated on a concrete two-dependency
manifest in a world where every lookup succeeds. -/
def envTwo : Env :=
  ⟨fun p => if p = "left-pad" then some infoDeprecated
            else if p = "right-pad" then some infoHealthy else none,
   fun p => if p = "left-pad" then some ⟨some [some "string-pad"]⟩ else none,
   fun _ => ""⟩

def pkgTwo : Manifest :=
  ⟨some [("left-pad", "^1.0.0")], some [("right-pad", "^2.0.0")]⟩

theorem claim5_scan_totals_witness :
    (countDeprecatedV (scan envTwo pkgTwo Cache.empty false).verdicts
        + countHealthyV (scan envTwo pkgTwo Cache.empty false).verdicts
        + countFailedV (scan envTwo pkgTwo Cache.empty false).verdicts
      = (scan envTwo pkgTwo Cache.empty false).total)
    ∧ (countFailedV (scan envTwo pkgTwo Cache.empty false).verdicts = 0 →
        (scan envTwo pkgTwo Cache.empty false).reportedHealthy
          = countHealthyV (scan envTwo pkgTwo Cache.empty false).verdicts) :=
  ⟨(claim5_scan_totals envTwo pkgTwo Cache.empty false).1,
   (claim5_scan_totals envTwo pkgTwo Cache.empty false).2.2.2⟩


/-! ### Cache reuse of the two fetchers (towards C4 and C7) -/

/-- Whether the truthiness guard `cache["alt:"+p]` holds. -/
def altCacheHit (c : Cache) (p : String) : Bool :=
  match lookupK c.alt p with
  | some s => truthyOpt s
  | none => false

@[simp] theorem truthyOpt_none : truthyOpt none = false := rfl

@[simp] theorem truthyOpt_some (s : String) : truthyOpt (some s) = (s != "") := rfl

theorem fetchNpmInfo_second (env : Env) (c : Cache) (p : String) (i : NpmInfo)
    (h : env.registry p = some i) :
    (fetchNpmInfo env (fetchNpmInfo env c p false).cache p false).value
        = (fetchNpmInfo env c p false).value
      ∧ (fetchNpmInfo env (fetchNpmInfo env c p false).cache p false).net = false
      ∧ (fetchNpmInfo env (fetchNpmInfo env c p false).cache p false).cache
          = (fetchNpmInfo env c p false).cache := by
  unfold fetchNpmInfo
  cases hl : lookupK c.npm p with
  | some j => simp [hl]
  | none => simp [hl, h, lookupK_setK]

theorem fetchAlternative_second_truthy (env : Env) (c : Cache) (p : String)
    (ht : truthyOpt (fetchAlternative env c p false).value = true) :
    (fetchAlternative env (fetchAlternative env c p false).cache p false).value
        = (fetchAlternative env c p false).value
      ∧ (fetchAlternative env (fetchAlternative env c p false).cache p false).net = false
      ∧ (fetchAlternative env (fetchAlternative env c p false).cache p false).cache
          = (fetchAlternative env c p false).cache := by
  unfold fetchAlternative at ht ⊢
  cases hl : lookupK c.alt p with
  | some cached =>
    by_cases htc : truthyOpt cached = true
    · simp [hl, htc]
    · simp [hl, htc] at ht
      cases hs : env.search p with
      | none => simp [hs] at ht
      | some resp =>
        simp [hs] at ht
        simp [hl, htc, hs, lookupK_setK, ht]
  | none =>
    simp [hl] at ht
    cases hs : env.search p with
    | none => simp [hs] at ht
    | some resp =>
      simp [hs] at ht
      simp [hl, hs, lookupK_setK, ht]

theorem fetchAlternative_second_null (env : Env) (c : Cache) (p : String)
    (hn : (fetchAlternative env c p false).value = none) :
    (fetchAlternative env (fetchAlternative env c p false).cache p false).net = true
      ∧ (fetchAlternative env (fetchAlternative env c p false).cache p false).value
          = none := by
  unfold fetchAlternative at hn ⊢
  cases hl : lookupK c.alt p with
  | some cached =>
    by_cases htc : truthyOpt cached = true
    · simp [hl, htc] at hn
      simp [hn] at htc
    · simp [hl, htc] at hn
      cases hs : env.search p with
      | none => simp [hl, htc, hs]
      | some resp =>
        simp [hs] at hn
        simp [hl, htc, hs, lookupK_setK, hn]
  | none =>
    simp [hl] at hn
    cases hs : env.search p with
    | none => simp [hl, hs]
    | some resp =>
      simp [hs] at hn
      simp [hl, hs, lookupK_setK, hn]


/-! ### C4 -/

/-- A world where the registry always answers and the search endpoint always
returns a parsed response with an empty result list. -/
def envEmptySearch : Env :=
  ⟨fun _ => some infoDeprecated, fun _ => some ⟨some []⟩, fun _ => ""⟩

/-- A world where the search endpoint always returns one usable result. -/
def envSearchOk : Env :=
  ⟨fun _ => some infoDeprecated, fun _ => some ⟨some [some "string-pad"]⟩, fun _ => ""⟩

/-- C4 counterexample: an empty search-result list yields a `null` suggestion
which IS written to the cache under the alt key, yet a second
`fetchAlternative` with forceRefresh = false issues a second network call,
because the cache guard is a truthiness test and `null` is falsy.  So two
calls issue two underlying network calls and the written entry is not
reused. -/
theorem claim4_counterexample :
    (fetchAlternative envEmptySearch Cache.empty "left-pad" false).net = true
      ∧ (fetchAlternative envEmptySearch Cache.empty "left-pad" false).value = none
      ∧ lookupK (fetchAlternative envEmptySearch Cache.empty "left-pad" false).cache.alt
          "left-pad" = some none
      ∧ (fetchAlternative envEmptySearch
            (fetchAlternative envEmptySearch Cache.empty "left-pad" false).cache
            "left-pad" false).net = true := by
  decide

/-- C4 (amended): with forceRefresh = false, a second `fetchInfo` issues no
network call and returns the value of the first whenever the first lookup
succeeded, and a second `fetchAlternative` issues no network call and
returns the value of the first whenever the first returned a truthy (non-null,
non-empty) suggestion; but when the first `fetchAlternative` returned `null`,
the second call hits the network again (returning `null` again in an
unchanged world). -/
theorem claim4_cache_reuse (env : Env) (c : Cache) (p : String) :
    (∀ i, env.registry p = some i →
        (fetchNpmInfo env (fetchNpmInfo env c p false).cache p false).value
            = (fetchNpmInfo env c p false).value
          ∧ (fetchNpmInfo env (fetchNpmInfo env c p false).cache p false).net = false)
      ∧ (truthyOpt (fetchAlternative env c p false).value = true →
          (fetchAlternative env (fetchAlternative env c p false).cache p false).value
              = (fetchAlternative env c p false).value
            ∧ (fetchAlternative env (fetchAlternative env c p false).cache p false).net
                = false)
      ∧ ((fetchAlternative env c p false).value = none →
          (fetchAlternative env (fetchAlternative env c p false).cache p false).net = true
            ∧ (fetchAlternative env (fetchAlternative env c p false).cache p false).value
                = none) :=
  ⟨fun i h => ⟨(fetchNpmInfo_second env c p i h).1, (fetchNpmInfo_second env c p i h).2.1⟩,
   fun ht => ⟨(fetchAlternative_second_truthy env c p ht).1,
     (fetchAlternative_second_truthy env c p ht).2.1⟩,
   fun hn => fetchAlternative_second_null env c p hn⟩

/-- C4 witness: the amended statement evaluated in a concrete world where both
lookups succeed and the suggestion is truthy. -/
theorem claim4_cache_reuse_witness :
    ((fetchNpmInfo envSearchOk (fetchNpmInfo envSearchOk Cache.empty "left-pad" false).cache
          "left-pad" false).value
        = (fetchNpmInfo envSearchOk Cache.empty "left-pad" false).value
      ∧ (fetchNpmInfo envSearchOk (fetchNpmInfo envSearchOk Cache.empty "left-pad" false).cache
          "left-pad" false).net = false)
    ∧ ((fetchAlternative envSearchOk (fetchAlternative envSearchOk Cache.empty "left-pad" false).cache
          "left-pad" false).value
        = (fetchAlternative envSearchOk Cache.empty "left-pad" false).value
      ∧ (fetchAlternative envSearchOk (fetchAlternative envSearchOk Cache.empty "left-pad" false).cache
          "left-pad" false).net = false) :=
  ⟨(claim4_cache_reuse envSearchOk Cache.empty "left-pad").1 infoDeprecated rfl,
   (claim4_cache_reuse envSearchOk Cache.empty "left-pad").2.1 (by decide)⟩

/-! ### C7 -/

/-- When the truthiness guard misses (or a refresh is forced), the
`fetchAlternative` outcome is entirely determined by the search endpoint:
a failed or unparsable request resolves `null` and leaves the cache alone,
a parsed response resolves its extracted suggestion and caches it. -/
theorem fetchAlternative_miss (env : Env) (c : Cache) (p : String) (rf : Bool)
    (hmiss : rf = true ∨ altCacheHit c p = false) :
    fetchAlternative env c p rf =
      (match env.search p with
       | none => ⟨none, c, true⟩
       | some resp => ⟨suggestionOf resp,
           { c with alt := setK c.alt p (suggestionOf resp) }, true⟩) := by
  unfold fetchAlternative
  rcases hmiss with hrf | hch
  · subst hrf
    simp
  · cases rf with
    | true => simp
    | false =>
      unfold altCacheHit at hch
      cases hl : lookupK c.alt p with
      | none => simp [hl]
      | some s =>
        rw [hl] at hch
        simp only [] at hch
        simp [hl, hch]

/-- C7 (amended): `fetchAlternative` never rejects; on an actual query (cache
miss or forced refresh) a failed or unparsable search request resolves `null`
WITHOUT writing any cache entry, while a parsed response resolves its
extracted suggestion and writes it under the alt key (so only in that case is
a `null` outcome recorded in the cache); the extracted suggestion is the
first result's package name, degrading to `null` for an empty or missing
result list or a missing/empty name. -/
theorem claim7_alternative_failure (env : Env) (c : Cache) (p : String) (rf : Bool)
    (hmiss : rf = true ∨ altCacheHit c p = false) :
    (env.search p = none →
        (fetchAlternative env c p rf).value = none
          ∧ (fetchAlternative env c p rf).cache = c
          ∧ (fetchAlternative env c p rf).net = true)
      ∧ (∀ resp, env.search p = some resp →
          (fetchAlternative env c p rf).value = suggestionOf resp
            ∧ lookupK (fetchAlternative env c p rf).cache.alt p
                = some (suggestionOf resp)
            ∧ (fetchAlternative env c p rf).net = true)
      ∧ (∀ (n : String) (rest : List (Option String)), n ≠ "" →
          suggestionOf ⟨some (some n :: rest)⟩ = some n)
      ∧ suggestionOf ⟨some []⟩ = none
      ∧ suggestionOf ⟨none⟩ = none := by
  rw [fetchAlternative_miss env c p rf hmiss]
  refine ⟨fun hs => ?_, fun resp hs => ?_, fun n rest hn => ?_, rfl, rfl⟩
  · rw [hs]
    exact ⟨rfl, rfl, rfl⟩
  · rw [hs]
    refine ⟨rfl, ?_, rfl⟩
    rw [lookupK_setK]
    simp
  · simp [suggestionOf, hn]

/-- C7 counterexample: a failed search query returns a `null` suggestion but
writes NO cache entry under the alt key, so after this null outcome the cache
carries no trace that the package was looked up — contradicting the claim
that a null outcome is distinguishable from not-yet-looked-up by the presence
of the alt cache entry. -/
theorem claim7_counterexample :
    (fetchAlternative envFail Cache.empty "left-pad" false).value = none
      ∧ (fetchAlternative envFail Cache.empty "left-pad" false).net = true
      ∧ lookupK (fetchAlternative envFail Cache.empty "left-pad" false).cache.alt
          "left-pad" = none := by
  decide

/-- C7 witness: the amended statement applied to the failing world. -/
theorem claim7_alternative_failure_witness :
    (fetchAlternative envFail Cache.empty "left-pad" false).value = none
      ∧ (fetchAlternative envFail Cache.empty "left-pad" false).cache = Cache.empty
      ∧ (fetchAlternative envFail Cache.empty "left-pad" false).net = true :=
  (claim7_alternative_failure envFail Cache.empty "left-pad" false
    (Or.inr (by decide))).1 rfl

/-! ### Witnesses for C2 and C3 -/

/-- A world in which every package is healthy. -/
def envHealthy : Env := ⟨fun _ => some infoHealthy, fun _ => none, fun _ => ""⟩

/-- C2 witness: the dry-run statement evaluated on a concrete manifest in a
world with one deprecated dependency. -/
theorem claim2_dry_run_non_mutation_witness :
    ((migrate envTwo ⟨false, true, false⟩ pkgTwo Cache.empty).pkg = pkgTwo
      ∧ (migrate envTwo ⟨false, true, false⟩ pkgTwo Cache.empty).wrote = false
      ∧ (migrate envTwo ⟨false, true, false⟩ pkgTwo Cache.empty).reinstalled = false
      ∧ (migrate envTwo ⟨false, true, false⟩ pkgTwo Cache.empty).modified = false
      ∧ noReplaced (migrate envTwo ⟨false, true, false⟩ pkgTwo Cache.empty).results = true
      ∧ wouldRecsOnly (migrate envTwo ⟨false, true, false⟩ pkgTwo Cache.empty).results
          = true)
    ∧ (migrate envTwo ⟨false, true, false⟩ pkgTwo Cache.empty).results
        = [⟨"left-pad", Action.wouldReplace, some "string-pad"⟩] :=
  ⟨claim2_dry_run_non_mutation envTwo ⟨false, true, false⟩ pkgTwo Cache.empty rfl,
   by decide⟩

/-- C3 witness: the post-loop statement evaluated on a concrete manifest in a
healthy world, with the no-deprecation hypotheses discharged. -/
theorem claim3_post_loop_write_witness :
    (migrate envHealthy ⟨false, false, false⟩ pkgTwo Cache.empty).wrote
        = (!(false : Bool)
            && anyReplaced (migrate envHealthy ⟨false, false, false⟩ pkgTwo Cache.empty).results)
      ∧ (migrate envHealthy ⟨false, false, false⟩ pkgTwo Cache.empty).reinstalled
          = (migrate envHealthy ⟨false, false, false⟩ pkgTwo Cache.empty).wrote
      ∧ ((migrate envHealthy ⟨false, false, false⟩ pkgTwo Cache.empty).wrote = false
          ∧ (migrate envHealthy ⟨false, false, false⟩ pkgTwo Cache.empty).reinstalled = false
          ∧ (migrate envHealthy ⟨false, false, false⟩ pkgTwo Cache.empty).results = []
          ∧ (migrate envHealthy ⟨false, false, false⟩ pkgTwo Cache.empty).pkg = pkgTwo) := by
  have h := claim3_post_loop_write envHealthy ⟨false, false, false⟩ pkgTwo Cache.empty
  exact ⟨h.1, h.2.1,
    h.2.2 (fun q i hi => Option.some.inj hi ▸ (by decide : isDeprecated infoHealthy = false))
      (fun q i hi => (nomatch hi))⟩


/-! ### C8 and C9 -/

/-- A manifest declaring the same package in both sections. -/
def pkgBoth : Manifest :=
  ⟨some [("left-pad", "^1.0.0")], some [("left-pad", "^1.0.0")]⟩

/-- A world with a deprecated package, a usable suggestion, and an operator
who accepts the first question and declines the second. -/
def envBoth : Env :=
  ⟨fun _ => some infoDeprecated,
   fun _ => some ⟨some [some "string-pad"]⟩,
   fun n => if n = 0 then "y" else "n"⟩

/-- C8: a migration run visits exactly the dependencies-section keys (in
stored order) and then the devDependencies-section keys, so a name declared
in both sections is processed twice, once per section in that fixed order;
the decisions are taken independently per visit, and concretely the two
visits can produce two distinct action records (here: replaced, then
skipped). -/
theorem claim8_duplicate_processed_twice :
    (∀ (env : Env) (opts : Opts) (pkg0 : Manifest) (c0 : Cache),
        (migrate env opts pkg0 c0).visited
          = (sectKeys pkg0 .dependencies).map (fun k => (Sect.dependencies, k))
            ++ (sectKeys pkg0 .devDependencies).map (fun k => (Sect.devDependencies, k)))
      ∧ (migrate envBoth ⟨true, false, false⟩ pkgBoth Cache.empty).visited
          = [(Sect.dependencies, "left-pad"), (Sect.devDependencies, "left-pad")]
      ∧ (migrate envBoth ⟨true, false, false⟩ pkgBoth Cache.empty).results
          = [⟨"left-pad", Action.replaced, some "string-pad"⟩,
             ⟨"left-pad", Action.skipped, none⟩] :=
  ⟨migrate_visited, by decide, by decide⟩

/-- C9: the names visited in each section are exactly the keys the section
held when its loop began (the original manifest keys — the key list is
snapshotted by Object.keys before the loop and the dependencies phase cannot
touch the devDependencies section), so a package name absent from both
original sections — in particular an alternative inserted by a replacement —
is never visited, hence never checked for deprecation or replaced, in the
same run. -/
theorem claim9_snapshot_iteration (env : Env) (opts : Opts) (pkg0 : Manifest) (c0 : Cache)
    (a : String)
    (ha1 : a ∉ sectKeys pkg0 .dependencies)
    (ha2 : a ∉ sectKeys pkg0 .devDependencies) :
    (migrate env opts pkg0 c0).visited
        = (sectKeys pkg0 .dependencies).map (fun k => (Sect.dependencies, k))
          ++ (sectKeys pkg0 .devDependencies).map (fun k => (Sect.devDependencies, k))
      ∧ (migrate env opts pkg0 c0).visited.all (fun v => v.2 != a) = true := by
  refine ⟨migrate_visited env opts pkg0 c0, ?_⟩
  rw [migrate_visited]
  simp only [List.all_append, Bool.and_eq_true, List.all_eq_true]
  constructor
  · intro x hx
    obtain ⟨k, hk, rfl⟩ := List.mem_map.mp hx
    simp only [bne_iff_ne, ne_eq]
    exact fun he => ha1 (he ▸ hk)
  · intro x hx
    obtain ⟨k, hk, rfl⟩ := List.mem_map.mp hx
    simp only [bne_iff_ne, ne_eq]
    exact fun he => ha2 (he ▸ hk)

/-- C9 witness: a run that actually inserts the alternative string-pad while
never visiting it. -/
theorem claim9_snapshot_iteration_witness :
    ((migrate envSearchOk ⟨false, false, false⟩ pkgOne Cache.empty).visited
        = (sectKeys pkgOne .dependencies).map (fun k => (Sect.dependencies, k))
          ++ (sectKeys pkgOne .devDependencies).map (fun k => (Sect.devDependencies, k)))
      ∧ (migrate envSearchOk ⟨false, false, false⟩ pkgOne Cache.empty).visited.all
          (fun v => v.2 != "string-pad") = true :=
  claim9_snapshot_iteration envSearchOk ⟨false, false, false⟩ pkgOne Cache.empty
    "string-pad" (by decide) (by decide)


/-! ### C1 -/

/-- An extracted suggestion is never the empty string (the source maps an
empty name to `null` through `|| null`). -/
theorem suggestionOf_ne_empty (resp : SearchResp) (a : String)
    (h : suggestionOf resp = some a) : a ≠ "" := by
  unfold suggestionOf at h
  cases hr : resp.results with
  | none => rw [hr] at h; exact (nomatch h)
  | some l =>
    rw [hr] at h
    cases l with
    | nil => exact (nomatch h)
    | cons first rest =>
      cases first with
      | none => exact (nomatch h)
      | some name =>
        simp only [Option.some.injEq] at h
        by_cases hn : name = ""
        · simp [hn] at h
        · simp only [if_neg hn, Option.some.injEq] at h
          exact h ▸ hn

theorem envAlt_ne_empty (env : Env) (p a : String) (h : envAlt env p = some a) :
    a ≠ "" := by
  unfold envAlt at h
  cases hs : env.search p with
  | none => rw [hs] at h; exact (nomatch h)
  | some resp => rw [hs] at h; exact suggestionOf_ne_empty resp a h

/-- A world that suggests the deprecated package itself as its own
replacement. -/
def envSelf : Env :=
  ⟨fun _ => some infoDeprecated, fun _ => some ⟨some [some "left-pad"]⟩, fun _ => ""⟩

/-- A world in which everything is deprecated and d-pkg's suggestion a-pkg is
itself deprecated with suggestion b-pkg. -/
def envChain : Env :=
  ⟨fun _ => some infoDeprecated,
   fun p => if p = "d-pkg" then some ⟨some [some "a-pkg"]⟩
            else some ⟨some [some "b-pkg"]⟩,
   fun _ => ""⟩

def pkgDA : Manifest := ⟨some [("d-pkg", "1.0.0"), ("a-pkg", "1.0.0")], none⟩

/-- C1 counterexample.  First scenario: the suggestion equals the dependency
itself; the record {left-pad, replaced, left-pad} is produced but left-pad is
NOT removed — it survives with specifier "latest".  Second scenario: the
suggestion a-pkg is distinct from d-pkg but is itself a deprecated manifest
entry; after the run a-pkg is absent from the section, so the claim's
conclusion that the alternative is present at "latest" fails as well. -/
theorem claim1_counterexample :
    ((migrate envSelf ⟨false, false, false⟩ pkgOne Cache.empty).results
        = [⟨"left-pad", Action.replaced, some "left-pad"⟩]
      ∧ (migrate envSelf ⟨false, false, false⟩ pkgOne Cache.empty).pkg.dependencies
          = some [("left-pad", "latest")])
    ∧ ((migrate envChain ⟨false, false, false⟩ pkgDA Cache.empty).results
        = [⟨"d-pkg", Action.replaced, some "a-pkg"⟩,
           ⟨"a-pkg", Action.replaced, some "b-pkg"⟩]
      ∧ (migrate envChain ⟨false, false, false⟩ pkgDA Cache.empty).pkg.dependencies
          = some [("b-pkg", "latest")]) := by
  decide

/-- C1 (amended): provided the suggested alternative differs from the
dependency and no other processed dependency interferes with the two entries
— here: a section holding the deprecated dependency alone — a
non-interactive, non-dry run removes d from its section, leaves a as the
section's sole entry with specifier "latest", records exactly
{d, replaced, a}, and writes and reinstalls. -/
theorem claim1_replacement (env : Env) (d v a : String) (i : NpmInfo) (rf : Bool)
    (hreg : env.registry d = some i)
    (hdep : isDeprecated i = true)
    (halt : envAlt env d = some a)
    (hne : a ≠ d) :
    (migrate env ⟨false, false, rf⟩ ⟨some [(d, v)], none⟩ Cache.empty).pkg
        = ⟨some [(a, "latest")], none⟩
      ∧ lookupK ((migrate env ⟨false, false, rf⟩
            ⟨some [(d, v)], none⟩ Cache.empty).pkg.dependencies.getD []) d = none
      ∧ (migrate env ⟨false, false, rf⟩ ⟨some [(d, v)], none⟩ Cache.empty).results
          = [⟨d, Action.replaced, some a⟩]
      ∧ (migrate env ⟨false, false, rf⟩ ⟨some [(d, v)], none⟩ Cache.empty).wrote = true
      ∧ (migrate env ⟨false, false, rf⟩ ⟨some [(d, v)], none⟩ Cache.empty).reinstalled
          = true := by
  have hne2 : a ≠ "" := envAlt_ne_empty env d a halt
  unfold envAlt at halt
  cases hs : env.search d with
  | none => rw [hs] at halt; exact (nomatch halt)
  | some resp =>
    rw [hs] at halt
    simp only [] at halt
    cases rf with
    | false =>
      refine ⟨?_, ?_, ?_, ?_, ?_⟩ <;>
        simp [migrate, migrateFinal, processSection, processDep, processDepCore,
          Manifest.sect, Manifest.updateSect, keysOf, fetchNpmInfo, fetchAlternative,
          lookupK, Cache.empty, hreg, hdep, hs, halt, hne2, hne, eraseK, setK]
    | true =>
      refine ⟨?_, ?_, ?_, ?_, ?_⟩ <;>
        simp [migrate, migrateFinal, processSection, processDep, processDepCore,
          Manifest.sect, Manifest.updateSect, keysOf, fetchNpmInfo, fetchAlternative,
          lookupK, Cache.empty, hreg, hdep, hs, halt, hne2, hne, eraseK, setK]

/-- C1 witness: the amended statement on the concrete left-pad scenario. -/
theorem claim1_replacement_witness :
    (migrate envSearchOk ⟨false, false, false⟩
        ⟨some [("left-pad", "^1.0.0")], none⟩ Cache.empty).pkg
        = ⟨some [("string-pad", "latest")], none⟩
      ∧ lookupK ((migrate envSearchOk ⟨false, false, false⟩
            ⟨some [("left-pad", "^1.0.0")], none⟩ Cache.empty).pkg.dependencies.getD [])
          "left-pad" = none
      ∧ (migrate envSearchOk ⟨false, false, false⟩
            ⟨some [("left-pad", "^1.0.0")], none⟩ Cache.empty).results
          = [⟨"left-pad", Action.replaced, some "string-pad"⟩]
      ∧ (migrate envSearchOk ⟨false, false, false⟩
            ⟨some [("left-pad", "^1.0.0")], none⟩ Cache.empty).wrote = true
      ∧ (migrate envSearchOk ⟨false, false, false⟩
            ⟨some [("left-pad", "^1.0.0")], none⟩ Cache.empty).reinstalled = true :=
  claim1_replacement envSearchOk "left-pad" "^1.0.0" "string-pad" infoDeprecated false
    rfl (by decide) (by decide) (by decide)


/-! ### C6 -/

theorem processDepCore_decline (env : Env) (opts : Opts) (sec : Sect) (dep : String)
    (st : MState) (p0 : Manifest)
    (hint : opts.interactive = true)
    (hdecl : ∀ n, accept (env.answers n) = false)
    (h : st.pkg = p0 ∧ st.modified = false ∧ allSkipped st.results = true
          ∧ st.skippedCount = st.results.length) :
    (processDepCore env opts sec dep st).pkg = p0
      ∧ (processDepCore env opts sec dep st).modified = false
      ∧ allSkipped (processDepCore env opts sec dep st).results = true
      ∧ (processDepCore env opts sec dep st).skippedCount
          = (processDepCore env opts sec dep st).results.length := by
  obtain ⟨h1, h2, h3, h4⟩ := h
  unfold processDepCore
  cases hf : fetchNpmInfo env st.cache dep opts.refresh with
  | mk v c n =>
    cases v with
    | none => exact ⟨h1, h2, h3, h4⟩
    | some info =>
      by_cases hd : isDeprecated info
      · simp only [hd, if_true, hint, hdecl st.promptIdx, Bool.false_and,
          Bool.false_eq_true, if_false, if_true]
        cases hv : (fetchAlternative env c dep opts.refresh).value with
        | none =>
          simp only [hv]
          refine ⟨h1, h2, allSkipped_snoc _ _ h3 rfl, ?_⟩
          simp [h4]
        | some a =>
          simp only [hv]
          refine ⟨h1, h2, allSkipped_snoc _ _ h3 rfl, ?_⟩
          simp [h4]
      · simp only [hd, Bool.false_eq_true, if_false]
        exact ⟨h1, h2, h3, h4⟩

theorem processDep_decline (env : Env) (opts : Opts) (sec : Sect) (dep : String)
    (st : MState) (p0 : Manifest)
    (hint : opts.interactive = true)
    (hdecl : ∀ n, accept (env.answers n) = false)
    (h : st.pkg = p0 ∧ st.modified = false ∧ allSkipped st.results = true
          ∧ st.skippedCount = st.results.length) :
    (processDep env opts sec dep st).pkg = p0
      ∧ (processDep env opts sec dep st).modified = false
      ∧ allSkipped (processDep env opts sec dep st).results = true
      ∧ (processDep env opts sec dep st).skippedCount
          = (processDep env opts sec dep st).results.length :=
  processDepCore_decline env opts sec dep _ p0 hint hdecl h

/-- A world in which the operator declines the first question (about d-pkg)
but accepts the second (about e-pkg), whose suggestion is d-pkg itself. -/
def envOverwrite : Env :=
  ⟨fun _ => some infoDeprecated,
   fun p => if p = "d-pkg" then some ⟨some [some "x-pkg"]⟩
            else some ⟨some [some "d-pkg"]⟩,
   fun n => if n = 0 then "n" else "y"⟩

def pkgDE : Manifest := ⟨some [("d-pkg", "1.0.0"), ("e-pkg", "1.0.0")], none⟩

/-- C6 counterexample: the operator declines d-pkg, so its record is skipped
and its own visit leaves it alone — but a later accepted replacement inserts
d-pkg as e-pkg's alternative, overwriting d-pkg's specifier from "1.0.0" to
"latest".  So after the run the declined dependency does NOT remain
unmodified in the manifest. -/
theorem claim6_counterexample :
    (migrate envOverwrite ⟨true, false, false⟩ pkgDE Cache.empty).results
        = [⟨"d-pkg", Action.skipped, none⟩,
           ⟨"e-pkg", Action.replaced, some "d-pkg"⟩]
      ∧ lookupK (pkgDE.dependencies.getD []) "d-pkg" = some "1.0.0"
      ∧ lookupK ((migrate envOverwrite ⟨true, false, false⟩ pkgDE
            Cache.empty).pkg.dependencies.getD []) "d-pkg" = some "latest" := by
  decide

/-- C6 (amended): the interactive question defaults to no — the empty answer
and anything not beginning with y/Y decline, while answers beginning with
y/Y accept; when the operator declines every question, every produced record
is a skipped record (with one skip counted per record), the manifest is
untouched and nothing is written or reinstalled.  A declined dependency d
itself is never removed, but its specifier can still be overwritten to
"latest" when a later accepted replacement inserts d as another dependency's
alternative. -/
theorem claim6_interactive_decline (env : Env) (opts : Opts) (pkg0 : Manifest)
    (c0 : Cache)
    (hint : opts.interactive = true)
    (hdecl : ∀ n, accept (env.answers n) = false) :
    (migrate env opts pkg0 c0).pkg = pkg0
      ∧ (migrate env opts pkg0 c0).wrote = false
      ∧ (migrate env opts pkg0 c0).reinstalled = false
      ∧ allSkipped (migrate env opts pkg0 c0).results = true
      ∧ (migrate env opts pkg0 c0).skippedCount
          = (migrate env opts pkg0 c0).results.length
      ∧ accept "" = false ∧ accept "n" = false ∧ accept "no" = false
      ∧ accept "N" = false ∧ accept "y" = true ∧ accept "Y" = true
      ∧ accept "yes" = true := by
  have hfin := migrateFinal_pres env opts pkg0 c0
    (fun st => st.pkg = pkg0 ∧ st.modified = false ∧ allSkipped st.results = true
      ∧ st.skippedCount = st.results.length)
    (fun sec dep st h => processDep_decline env opts sec dep st pkg0 hint hdecl h)
    ⟨rfl, rfl, rfl, rfl⟩
  obtain ⟨h1, h2, h3, h4⟩ := hfin
  rw [migrate_eq]
  exact ⟨h1, by simp [h2], by simp [h2], h3, h4,
    by decide, by decide, by decide, by decide, by decide, by decide, by decide⟩

/-- A world where the operator declines everything. -/
def envDeclineAll : Env :=
  ⟨fun _ => some infoDeprecated, fun _ => some ⟨some [some "string-pad"]⟩,
   fun _ => "n"⟩

/-- C6 witness: the amended statement on the one-dependency manifest with an
always-declining operator (the run does produce a skipped record for the
deprecated dependency). -/
theorem claim6_interactive_decline_witness :
    ((migrate envDeclineAll ⟨true, false, false⟩ pkgOne Cache.empty).pkg = pkgOne
      ∧ (migrate envDeclineAll ⟨true, false, false⟩ pkgOne Cache.empty).wrote = false
      ∧ (migrate envDeclineAll ⟨true, false, false⟩ pkgOne Cache.empty).reinstalled = false
      ∧ allSkipped (migrate envDeclineAll ⟨true, false, false⟩ pkgOne Cache.empty).results
          = true
      ∧ (migrate envDeclineAll ⟨true, false, false⟩ pkgOne Cache.empty).skippedCount
          = (migrate envDeclineAll ⟨true, false, false⟩ pkgOne Cache.empty).results.length
      ∧ accept "" = false ∧ accept "n" = false ∧ accept "no" = false
      ∧ accept "N" = false ∧ accept "y" = true ∧ accept "Y" = true
      ∧ accept "yes" = true)
    ∧ (migrate envDeclineAll ⟨true, false, false⟩ pkgOne Cache.empty).results
        = [⟨"left-pad", Action.skipped, none⟩] :=
  ⟨claim6_interactive_decline envDeclineAll ⟨true, false, false⟩ pkgOne Cache.empty
      rfl (fun _ => (by decide : accept "n" = false)),
   by decide⟩


/-! ### C10 -/

/-- A registry document that lacks dist-tags.latest, or lacks versions, or
lacks the versions entry for the latest tag, or lacks the deprecated field
of that entry, or carries an empty-string deprecated message, is not
deprecated for the tool. -/
theorem shape_not_deprecated (i : NpmInfo)
    (h : i.distTagsLatest = none
        ∨ i.versions = none
        ∨ (∃ l vs, i.distTagsLatest = some l ∧ i.versions = some vs
            ∧ lookupK vs l = none)
        ∨ (∃ l vs, i.distTagsLatest = some l ∧ i.versions = some vs
            ∧ lookupK vs l = some none)
        ∨ (∃ l vs, i.distTagsLatest = some l ∧ i.versions = some vs
            ∧ lookupK vs l = some (some ""))) :
    isDeprecated i = false := by
  unfold isDeprecated deprecatedMsgOf
  rcases h with h | h | ⟨l, vs, h1, h2, h3⟩ | ⟨l, vs, h1, h2, h3⟩ | ⟨l, vs, h1, h2, h3⟩
  · simp [h]
  · cases hl : i.distTagsLatest <;> simp [h]
  · simp [h1, h2, h3]
  · simp [h1, h2, h3]
  · simp [h1, h2, h3]

/-- C10: a registry response that parses but lacks dist-tags.latest, lacks
the versions entry for the latest tag (or the versions table altogether),
lacks the deprecated field, or carries an empty-string deprecated message is
classified healthy — not failed — by scan, and migrate raises no error,
records nothing and attempts no replacement for that dependency, leaving the
manifest untouched under every flag combination. -/
theorem claim10_loose_payload_healthy (env : Env) (d v : String) (i : NpmInfo)
    (rf : Bool) (opts : Opts)
    (hreg : env.registry d = some i)
    (hshape : i.distTagsLatest = none
        ∨ i.versions = none
        ∨ (∃ l vs, i.distTagsLatest = some l ∧ i.versions = some vs
            ∧ lookupK vs l = none)
        ∨ (∃ l vs, i.distTagsLatest = some l ∧ i.versions = some vs
            ∧ lookupK vs l = some none)
        ∨ (∃ l vs, i.distTagsLatest = some l ∧ i.versions = some vs
            ∧ lookupK vs l = some (some ""))) :
    (scan env ⟨some [(d, v)], none⟩ Cache.empty rf).verdicts = [(d, Verdict.healthy)]
      ∧ (scan env ⟨some [(d, v)], none⟩ Cache.empty rf).deprecatedCount = 0
      ∧ (scan env ⟨some [(d, v)], none⟩ Cache.empty rf).reportedHealthy = 1
      ∧ (migrate env opts ⟨some [(d, v)], none⟩ Cache.empty).results = []
      ∧ (migrate env opts ⟨some [(d, v)], none⟩ Cache.empty).pkg = ⟨some [(d, v)], none⟩
      ∧ (migrate env opts ⟨some [(d, v)], none⟩ Cache.empty).wrote = false := by
  have hd := shape_not_deprecated i hshape
  obtain ⟨oi, od, orf⟩ := opts
  have hscan : (scan env ⟨some [(d, v)], none⟩ Cache.empty rf).verdicts
        = [(d, Verdict.healthy)]
      ∧ (scan env ⟨some [(d, v)], none⟩ Cache.empty rf).deprecatedCount = 0
      ∧ (scan env ⟨some [(d, v)], none⟩ Cache.empty rf).reportedHealthy = 1 := by
    cases rf <;>
      simp [scan, mergedKeys, keysOf, scanStep, fetchNpmInfo, lookupK,
        Cache.empty, Manifest.sect, hreg, hd]
  have hmig : (migrate env ⟨oi, od, orf⟩ ⟨some [(d, v)], none⟩ Cache.empty).results = []
      ∧ (migrate env ⟨oi, od, orf⟩ ⟨some [(d, v)], none⟩ Cache.empty).pkg
          = ⟨some [(d, v)], none⟩
      ∧ (migrate env ⟨oi, od, orf⟩ ⟨some [(d, v)], none⟩ Cache.empty).wrote = false := by
    cases orf <;>
      simp [migrate, migrateFinal, processSection, processDep, processDepCore,
        Manifest.sect, keysOf, fetchNpmInfo, lookupK, Cache.empty, hreg, hd]
  exact ⟨hscan.1, hscan.2.1, hscan.2.2, hmig.1, hmig.2.1, hmig.2.2⟩

/-- A registry document whose latest version carries an empty deprecation
message. -/
def infoEmptyMsg : NpmInfo := ⟨some "1.0.0", some [("1.0.0", some "")]⟩

def envEmptyMsg : Env := ⟨fun _ => some infoEmptyMsg, fun _ => none, fun _ => ""⟩

/-- C10 witness: the empty-string deprecation message case on a concrete
one-dependency manifest. -/
theorem claim10_loose_payload_healthy_witness :
    (scan envEmptyMsg ⟨some [("left-pad", "^1.0.0")], none⟩ Cache.empty false).verdicts
        = [("left-pad", Verdict.healthy)]
      ∧ (scan envEmptyMsg ⟨some [("left-pad", "^1.0.0")], none⟩ Cache.empty
          false).deprecatedCount = 0
      ∧ (scan envEmptyMsg ⟨some [("left-pad", "^1.0.0")], none⟩ Cache.empty
          false).reportedHealthy = 1
      ∧ (migrate envEmptyMsg ⟨false, false, false⟩ ⟨some [("left-pad", "^1.0.0")], none⟩
          Cache.empty).results = []
      ∧ (migrate envEmptyMsg ⟨false, false, false⟩ ⟨some [("left-pad", "^1.0.0")], none⟩
          Cache.empty).pkg = ⟨some [("left-pad", "^1.0.0")], none⟩
      ∧ (migrate envEmptyMsg ⟨false, false, false⟩ ⟨some [("left-pad", "^1.0.0")], none⟩
          Cache.empty).wrote = false :=
  claim10_loose_payload_healthy envEmptyMsg "left-pad" "^1.0.0" infoEmptyMsg false
    ⟨false, false, false⟩ rfl
    (Or.inr (Or.inr (Or.inr (Or.inr
      ⟨"1.0.0", [("1.0.0", some "")], rfl, rfl, by decide⟩))))

end DepMigrate
